import Mathlib

/-!
Verification development for the SleepGuard daemon
(`sleepguard_daemon.py`).  The definitions below are a shallow
embedding of the daemon's core: the fatigue-score computation
(`calculate_fatigue_score`), the keystroke window maintained by
`on_press`, the notification gate of `monitor_loop`, the snapshot
persistence (`save_stats`) and the shutdown path of `start`.
Timestamps and sub-scores are modelled as rationals (Python floats),
hours and scores as integers, and the keystroke history as a list of
timestamps, newest at the tail.
-/

namespace SleepGuard

/-- Configuration record, mirroring the JSON config keys used by the
daemon (`bedtime_hour`, `critical_hour`, `max_session_hours`,
`notification_levels`, `keystroke_window_seconds`,
`save_interval_seconds`). -/
structure Config where
  bedtime_hour : ℤ
  critical_hour : ℤ
  max_session_hours : ℚ
  notification_levels : List ℤ
  keystroke_window_seconds : ℚ
  save_interval_seconds : ℚ

/-- The default configuration written by `load_config` when no config
file exists. -/
def defaultConfig : Config :=
  { bedtime_hour := 23
    critical_hour := 2
    max_session_hours := 4
    notification_levels := [30, 60, 90]
    keystroke_window_seconds := 60
    save_interval_seconds := 60 }

/-- Hours past bedtime as computed inside `calculate_fatigue_score`:
`hour - bedtime` when `hour >= bedtime`, otherwise the midnight
rollover `(24 - bedtime) + hour`. -/
def hours_past_bedtime (bedtime hour : ℤ) : ℤ :=
  if bedtime ≤ hour then hour - bedtime else (24 - bedtime) + hour

/-- Factor 1 of `calculate_fatigue_score`: time-of-day score.  Zero
outside the late-night band (`hour >= bedtime or hour < 6`), otherwise
`min(30, hours_past_bedtime * 7)`. -/
def time_score (bedtime hour : ℤ) : ℚ :=
  if bedtime ≤ hour ∨ hour < 6 then
    min 30 ((hours_past_bedtime bedtime hour : ℚ) * 7)
  else 0

/-- Factor 2 of `calculate_fatigue_score`: session-duration score.
Zero during the first hour, otherwise
`min(40, (session_duration / max_session) * 40)`. -/
def duration_score (max_session duration_hours : ℚ) : ℚ :=
  if 1 < duration_hours then min 40 (duration_hours / max_session * 40) else 0

/-- Factor 3 of `calculate_fatigue_score`: keystroke-rate score, a
function of `len(keystroke_history)`.  An empty history scores 25; a
nonempty one is tiered with strict cutoffs at 30, 60 and 90. -/
def rate_score (n : ℕ) : ℚ :=
  if 0 < n then
    if n < 30 then 30
    else if n < 60 then 20
    else if n < 90 then 10
    else 0
  else 25

/-- Python `int()` applied to a float: truncation toward zero. -/
def ratTrunc (q : ℚ) : ℤ :=
  if q < 0 then ⌈q⌉ else ⌊q⌋

/-- The full `calculate_fatigue_score`: the three factors are summed
and the result is `min(100, int(total))`.  The keystroke factor is a
function of the current length of the (unpruned) keystroke history. -/
def calculate_fatigue_score (cfg : Config) (hour : ℤ) (duration_hours : ℚ)
    (history_len : ℕ) : ℤ :=
  min 100 (ratTrunc (time_score cfg.bedtime_hour hour +
    duration_score cfg.max_session_hours duration_hours +
    rate_score history_len))

/-- Keystroke handling of `on_press`: append the new timestamp `t` to the
history, then keep only entries strictly newer than
`t - keystroke_window_seconds`. -/
def record (window : ℚ) (history : List ℚ) (t : ℚ) : List ℚ :=
  (history ++ [t]).filter (fun x => decide (t - window < x))

/-- Rate reported by `get_keystroke_rate`: the number of retained history entries
(`len(keystroke_history)` when positive, else 0). -/
def get_keystroke_rate (history : List ℚ) : ℕ :=
  if 0 < history.length then history.length else 0

/-- Formatted session duration as produced by `get_session_duration`:
whole hours and whole minutes of the elapsed seconds. -/
def get_session_duration (secs : ℚ) : String :=
  toString ⌊secs / 3600⌋ ++ "h " ++
    toString ⌊(secs - 3600 * (⌊secs / 3600⌋ : ℚ)) / 60⌋ ++ "m"

/-- The three fixed message tiers of `send_notification`. -/
inductive NotifTier where
  | critical : NotifTier
  | high : NotifTier
  | warning : String → NotifTier
deriving DecidableEq

/-- Message selection of `send_notification`: picks the message by the magnitude of the
score it is handed (90/60/30 cutoffs); below 30 nothing is sent.  The
warning tier carries the formatted session duration. -/
def send_notification (session_secs : ℚ) (score : ℤ) : Option NotifTier :=
  if 90 ≤ score then some NotifTier.critical
  else if 60 ≤ score then some NotifTier.high
  else if 30 ≤ score then some (NotifTier.warning (get_session_duration session_secs))
  else none

/-- The notification loop of `monitor_loop`: scan the (sorted) levels
and return the first `L` with `score >= L` and `last < L`, stopping at
the first hit (the `break`). -/
def find_fire (levels : List ℤ) (score last : ℤ) : Option ℤ :=
  match levels with
  | [] => none
  | l :: ls => if l ≤ score ∧ last < l then some l else find_fire ls score last

/-- Outcome of one alert-gate pass of `monitor_loop`: which level (if
any) fired, the score tag handed to `send_notification`, and the new
`last_notification_level` after the reset check. -/
structure GateResult where
  fired : Option ℤ
  notif : Option ℤ
  last : ℤ
deriving DecidableEq

/-- One alert-gate pass of `monitor_loop`: iterate
`sorted(notification_levels)` firing at most once, tag the
notification with the current score, update
`last_notification_level`, then reset it to 0 when the score is below
30 (the reset check runs after the fire check). -/
def alert_step (levels : List ℤ) (score last : ℤ) : GateResult :=
  let f := find_fire (levels.insertionSort (· ≤ ·)) score last
  let last1 := f.getD last
  { fired := f
    notif := f.map (fun _ => score)
    last := if score < 30 then 0 else last1 }

/-- Mutable daemon state: session start, keystroke counter and
history, last computed score, `last_notification_level`, the loop's
`last_save_time`, and the running flag. -/
structure DaemonState where
  session_start : ℚ
  keystroke_count : ℕ
  keystroke_history : List ℚ
  fatigue_score : ℤ
  last_notification_level : ℤ
  last_save_time : ℚ
  running : Bool
deriving DecidableEq

/-- The fields of the persisted stats record that come from the
daemon's own state (`save_stats`); system metrics are external. -/
structure Snapshot where
  session_duration_seconds : ℚ
  total_keystrokes : ℕ
  current_keystroke_rate : ℕ
  fatigue_score : ℤ
  current_hour : ℤ
deriving DecidableEq

/-- Snapshot built by `save_stats` from the current state. -/
def save_stats (hour : ℤ) (now : ℚ) (st : DaemonState) : Snapshot :=
  { session_duration_seconds := now - st.session_start
    total_keystrokes := st.keystroke_count
    current_keystroke_rate := get_keystroke_rate st.keystroke_history
    fatigue_score := st.fatigue_score
    current_hour := hour }

/-- Effect of `on_press` on the daemon state: bump the counter and record
the keystroke in the window. -/
def on_press (cfg : Config) (t : ℚ) (st : DaemonState) : DaemonState :=
  { st with
    keystroke_count := st.keystroke_count + 1
    keystroke_history := record cfg.keystroke_window_seconds st.keystroke_history t }

/-- One body of `monitor_loop`: recompute the fatigue score from the
current (unpruned) history, run the alert gate, deliver the
notification when the sink succeeds, and persist a snapshot exactly
when `now - last_save_time >= save_interval_seconds` (updating
`last_save_time`).  Returns the new state, the delivered notification
and the snapshot written, if any. -/
def evaluate (cfg : Config) (hour : ℤ) (now : ℚ) (sink_ok : Bool)
    (st : DaemonState) : DaemonState × Option NotifTier × Option Snapshot :=
  let score := calculate_fatigue_score cfg hour
    ((now - st.session_start) / 3600) st.keystroke_history.length
  let g := alert_step cfg.notification_levels score st.last_notification_level
  let delivered := match g.notif with
    | some s => if sink_ok then send_notification (now - st.session_start) s else none
    | none => none
  let doSave := cfg.save_interval_seconds ≤ now - st.last_save_time
  let st1 : DaemonState :=
    { st with
      fatigue_score := score
      last_notification_level := g.last
      last_save_time := if doSave then now else st.last_save_time }
  (st1, delivered, if doSave then some (save_stats hour now st1) else none)

/-- The shutdown path of `start`: clear the running flag (the keyboard
listener is stopped, so ingestion ends) and perform one final
`save_stats` unconditionally. -/
def shutdown (hour : ℤ) (now : ℚ) (st : DaemonState) : DaemonState × Snapshot :=
  ({ st with running := false }, save_stats hour now st)

/-- Value of `last_notification_level` after folding the alert gate over a list
of successive scores. -/
def gate_last (levels : List ℤ) (last : ℤ) (scores : List ℤ) : ℤ :=
  scores.foldl (fun l s => (alert_step levels s l).last) last

/-- Times at which the periodic save gate of `monitor_loop` fires
along a run of `evaluate` ticks, each tick bringing an hour and a
wall-clock time. -/
def save_times (cfg : Config) (st : DaemonState) : List (ℤ × ℚ) → List ℚ
  | [] => []
  | (h, t) :: rest =>
    if ((evaluate cfg h t true st).2.2).isSome then
      t :: save_times cfg (evaluate cfg h t true st).1 rest
    else save_times cfg (evaluate cfg h t true st).1 rest

/-- Keystroke history after folding `record` over a list of keystroke
times. -/
def record_all (window : ℚ) (history : List ℚ) (ts : List ℚ) : List ℚ :=
  ts.foldl (record window) history

theorem find_fire_some {levels : List ℤ} {s last l : ℤ}
    (h : find_fire levels s last = some l) :
    l ∈ levels ∧ l ≤ s ∧ last < l := by
  induction levels with
  | nil => simp [find_fire] at h
  | cons a as ih =>
    rw [find_fire] at h
    by_cases hc : a ≤ s ∧ last < a
    · rw [if_pos hc] at h
      obtain rfl : a = l := Option.some.inj h
      exact ⟨List.mem_cons_self a as, hc.1, hc.2⟩
    · rw [if_neg hc] at h
      obtain ⟨hm, h1, h2⟩ := ih h
      exact ⟨List.mem_cons_of_mem a hm, h1, h2⟩

theorem find_fire_min {levels : List ℤ} {s last l : ℤ}
    (hs : levels.Sorted (· ≤ ·))
    (h : find_fire levels s last = some l) :
    ∀ x ∈ levels, x ≤ s → last < x → l ≤ x := by
  induction levels with
  | nil => simp [find_fire] at h
  | cons a as ih =>
    rw [List.sorted_cons] at hs
    rw [find_fire] at h
    by_cases hc : a ≤ s ∧ last < a
    · rw [if_pos hc] at h
      obtain rfl : a = l := Option.some.inj h
      intro x hx _ _
      rcases List.mem_cons.mp hx with rfl | hx
      · exact le_refl x
      · exact hs.1 x hx
    · rw [if_neg hc] at h
      intro x hx h1 h2
      rcases List.mem_cons.mp hx with rfl | hx
      · exact absurd ⟨h1, h2⟩ hc
      · exact ih hs.2 h x hx h1 h2

theorem find_fire_none {levels : List ℤ} {s last : ℤ}
    (h : find_fire levels s last = none) :
    ∀ x ∈ levels, ¬(x ≤ s ∧ last < x) := by
  induction levels with
  | nil => intro x hx; simp at hx
  | cons a as ih =>
    rw [find_fire] at h
    by_cases hc : a ≤ s ∧ last < a
    · rw [if_pos hc] at h; exact absurd h (by simp)
    · rw [if_neg hc] at h
      intro x hx
      rcases List.mem_cons.mp hx with rfl | hx
      · exact hc
      · exact ih h x hx

theorem alert_step_fired_find {levels : List ℤ} {s last : ℤ} :
    (alert_step levels s last).fired =
      find_fire (levels.insertionSort (· ≤ ·)) s last := rfl

theorem alert_step_fired_spec {levels : List ℤ} {s last L : ℤ}
    (h : (alert_step levels s last).fired = some L) :
    L ∈ levels ∧ L ≤ s ∧ last < L ∧ (∀ M ∈ levels, M ≤ s → last < M → L ≤ M) := by
  rw [alert_step_fired_find] at h
  obtain ⟨hm, h1, h2⟩ := find_fire_some h
  refine ⟨(List.mem_insertionSort _).mp hm, h1, h2, ?_⟩
  intro M hM h3 h4
  exact find_fire_min (List.sorted_insertionSort _ _) h M
    ((List.mem_insertionSort _).mpr hM) h3 h4

theorem alert_step_last_reset {levels : List ℤ} {s last : ℤ} (h : s < 30) :
    (alert_step levels s last).last = 0 := by
  simp [alert_step, h]

theorem alert_step_last_of_fired {levels : List ℤ} {s last L : ℤ}
    (hf : (alert_step levels s last).fired = some L) (h : ¬ s < 30) :
    (alert_step levels s last).last = L := by
  rw [alert_step_fired_find] at hf
  simp [alert_step, hf, h]

theorem alert_step_last_of_none {levels : List ℤ} {s last : ℤ}
    (hf : (alert_step levels s last).fired = none) (h : ¬ s < 30) :
    (alert_step levels s last).last = last := by
  rw [alert_step_fired_find] at hf
  simp [alert_step, hf, h]

theorem alert_step_last_mono {levels : List ℤ} {s last : ℤ} (h : ¬ s < 30) :
    last ≤ (alert_step levels s last).last := by
  cases hf : (alert_step levels s last).fired with
  | none => rw [alert_step_last_of_none hf h]
  | some M =>
    rw [alert_step_last_of_fired hf h]
    exact le_of_lt (alert_step_fired_spec hf).2.2.1

theorem gate_last_cons (levels : List ℤ) (last s : ℤ) (ss : List ℤ) :
    gate_last levels last (s :: ss) =
      gate_last levels (alert_step levels s last).last ss := rfl

theorem gate_last_append (levels : List ℤ) (last : ℤ) (xs ys : List ℤ) :
    gate_last levels last (xs ++ ys) =
      gate_last levels (gate_last levels last xs) ys := by
  simp [gate_last, List.foldl_append]

theorem gate_last_mono {levels : List ℤ} {scores : List ℤ}
    (h : ∀ s ∈ scores, ¬ s < 30) :
    ∀ last : ℤ, last ≤ gate_last levels last scores := by
  induction scores with
  | nil => intro last; exact le_refl last
  | cons a as ih =>
    intro last
    rw [gate_last_cons]
    refine le_trans
      (@alert_step_last_mono levels a last (h a (List.mem_cons_self a as))) ?_
    exact ih (fun s hs => h s (List.mem_cons_of_mem a hs)) _

theorem hours_past_bedtime_nonneg {bedtime hour : ℤ} (hh : 0 ≤ hour)
    (hb : bedtime < 24) : 0 ≤ hours_past_bedtime bedtime hour := by
  unfold hours_past_bedtime
  split_ifs with h
  · omega
  · omega

theorem time_score_nonneg {bedtime hour : ℤ} (hh : 0 ≤ hour) (hb : bedtime < 24) :
    0 ≤ time_score bedtime hour := by
  unfold time_score
  split_ifs with h
  · refine le_min (by norm_num) ?_
    have h0 : (0 : ℚ) ≤ (hours_past_bedtime bedtime hour : ℚ) := by
      exact_mod_cast hours_past_bedtime_nonneg hh hb
    nlinarith
  · exact le_refl 0

theorem time_score_le {bedtime hour : ℤ} : time_score bedtime hour ≤ 30 := by
  unfold time_score
  split_ifs with h
  · exact min_le_left 30 _
  · norm_num

theorem duration_score_nonneg {m d : ℚ} (hm : 0 < m) : 0 ≤ duration_score m d := by
  unfold duration_score
  split_ifs with h
  · refine le_min (by norm_num) ?_
    have hd : (0 : ℚ) ≤ d := le_of_lt (lt_trans one_pos h)
    have : (0 : ℚ) ≤ d / m := div_nonneg hd (le_of_lt hm)
    nlinarith
  · exact le_refl 0

theorem duration_score_le {m d : ℚ} : duration_score m d ≤ 40 := by
  unfold duration_score
  split_ifs with h
  · exact min_le_left 40 _
  · norm_num

theorem rate_score_nonneg (n : ℕ) : 0 ≤ rate_score n := by
  unfold rate_score
  split_ifs <;> norm_num

theorem rate_score_le (n : ℕ) : rate_score n ≤ 30 := by
  unfold rate_score
  split_ifs <;> norm_num

theorem ratTrunc_nonneg {q : ℚ} (h : 0 ≤ q) : 0 ≤ ratTrunc q := by
  unfold ratTrunc
  rw [if_neg (not_lt.mpr h)]
  exact Int.floor_nonneg.mpr h

theorem evaluate_state (cfg : Config) (hour : ℤ) (now : ℚ) (sink : Bool)
    (st : DaemonState) :
    (evaluate cfg hour now sink st).1 =
      { st with
        fatigue_score := calculate_fatigue_score cfg hour
          ((now - st.session_start) / 3600) st.keystroke_history.length
        last_notification_level :=
          (alert_step cfg.notification_levels
            (calculate_fatigue_score cfg hour
              ((now - st.session_start) / 3600) st.keystroke_history.length)
            st.last_notification_level).last
        last_save_time :=
          if cfg.save_interval_seconds ≤ now - st.last_save_time then now
          else st.last_save_time } := rfl

theorem evaluate_snap (cfg : Config) (hour : ℤ) (now : ℚ) (sink : Bool)
    (st : DaemonState) :
    (evaluate cfg hour now sink st).2.2 =
      if cfg.save_interval_seconds ≤ now - st.last_save_time then
        some (save_stats hour now (evaluate cfg hour now sink st).1)
      else none := rfl

theorem evaluate_save_isSome (cfg : Config) (hour : ℤ) (now : ℚ) (sink : Bool)
    (st : DaemonState) :
    ((evaluate cfg hour now sink st).2.2).isSome = true ↔
      cfg.save_interval_seconds ≤ now - st.last_save_time := by
  rw [evaluate_snap]
  split_ifs with h
  · simp [h]
  · simp [h]

theorem evaluate_last_save (cfg : Config) (hour : ℤ) (now : ℚ) (sink : Bool)
    (st : DaemonState) :
    (evaluate cfg hour now sink st).1.last_save_time =
      if cfg.save_interval_seconds ≤ now - st.last_save_time then now
      else st.last_save_time := by
  rw [evaluate_state]

theorem save_times_head_ge (cfg : Config) :
    ∀ (ticks : List (ℤ × ℚ)) (st : DaemonState) (t : ℚ),
      (save_times cfg st ticks).head? = some t →
      cfg.save_interval_seconds ≤ t - st.last_save_time := by
  intro ticks
  induction ticks with
  | nil => intro st t h; simp [save_times] at h
  | cons p rest ih =>
    intro st t h
    obtain ⟨ph, pt⟩ := p
    rw [save_times] at h
    by_cases hs : ((evaluate cfg ph pt true st).2.2).isSome
    · rw [if_pos hs] at h
      have hpt : pt = t := by simpa using h
      rw [← hpt]
      exact (evaluate_save_isSome cfg ph pt true st).mp hs
    · rw [if_neg hs] at h
      have hgate : ¬ cfg.save_interval_seconds ≤ pt - st.last_save_time := by
        intro hc
        exact hs ((evaluate_save_isSome cfg ph pt true st).mpr hc)
      have hkeep : (evaluate cfg ph pt true st).1.last_save_time =
          st.last_save_time := by
        rw [evaluate_last_save, if_neg hgate]
      have := ih (evaluate cfg ph pt true st).1 t h
      rw [hkeep] at this
      exact this

theorem save_times_chain (cfg : Config) :
    ∀ (ticks : List (ℤ × ℚ)) (st : DaemonState),
      List.Chain' (fun a b => cfg.save_interval_seconds ≤ b - a)
        (save_times cfg st ticks) := by
  intro ticks
  induction ticks with
  | nil => intro st; simp [save_times]
  | cons p rest ih =>
    intro st
    obtain ⟨ph, pt⟩ := p
    rw [save_times]
    by_cases hs : ((evaluate cfg ph pt true st).2.2).isSome
    · rw [if_pos hs]
      rw [List.chain'_cons']
      constructor
      · intro y hy
        have hy' : (save_times cfg (evaluate cfg ph pt true st).1 rest).head? =
            some y := by simpa using hy
        have hgate : cfg.save_interval_seconds ≤ pt - st.last_save_time :=
          (evaluate_save_isSome cfg ph pt true st).mp hs
        have hset : (evaluate cfg ph pt true st).1.last_save_time = pt := by
          rw [evaluate_last_save, if_pos hgate]
        have := save_times_head_ge cfg rest (evaluate cfg ph pt true st).1 y hy'
        rw [hset] at this
        exact this
      · exact ih _
    · rw [if_neg hs]
      exact ih _

theorem record_mem {W t : ℚ} {h : List ℚ} {e : ℚ} (he : e ∈ record W h t) :
    e ∈ h ∨ e = t := by
  unfold record at he
  have hm := List.mem_of_mem_filter he
  rcases List.mem_append.mp hm with h1 | h1
  · exact Or.inl h1
  · exact Or.inr (by simpa using h1)

theorem record_all_mem {W : ℚ} :
    ∀ (ts : List ℚ) (h : List ℚ) (e : ℚ),
      e ∈ record_all W h ts → e ∈ h ∨ e ∈ ts := by
  intro ts
  induction ts with
  | nil => intro h e he; exact Or.inl he
  | cons a as ih =>
    intro h e he
    have he' : e ∈ record_all W (record W h a) as := he
    rcases ih (record W h a) e he' with h1 | h1
    · rcases record_mem h1 with h2 | h2
      · exact Or.inl h2
      · exact Or.inr (by simp [h2])
    · exact Or.inr (List.mem_cons_of_mem a h1)

theorem get_keystroke_rate_eq (hist : List ℚ) :
    get_keystroke_rate hist = hist.length := by
  unfold get_keystroke_rate
  split_ifs with h
  · rfl
  · omega

/-- C1: `calculate_fatigue_score` is the sum of the three factors,
each clamped to its own range (time at most 30, duration at most 40,
rate at most 30), with exactly one integer truncation applied after
summation followed by the clamp at 100; for every hour, duration,
window content and valid config the total lies in [0, 100]. -/
theorem fatigue_score_bounds (cfg : Config) (hour : ℤ) (d : ℚ) (n : ℕ)
    (hhour : 0 ≤ hour) (hbed : cfg.bedtime_hour < 24)
    (hmax : 0 < cfg.max_session_hours) :
    calculate_fatigue_score cfg hour d n =
      min 100 (ratTrunc (time_score cfg.bedtime_hour hour +
        duration_score cfg.max_session_hours d + rate_score n)) ∧
    time_score cfg.bedtime_hour hour ≤ 30 ∧
    duration_score cfg.max_session_hours d ≤ 40 ∧
    rate_score n ≤ 30 ∧
    0 ≤ calculate_fatigue_score cfg hour d n ∧
    calculate_fatigue_score cfg hour d n ≤ 100 := by
  have ht0 := time_score_nonneg hhour hbed
  have hd0 := @duration_score_nonneg cfg.max_session_hours d hmax
  have hr0 := rate_score_nonneg n
  have hsum : 0 ≤ time_score cfg.bedtime_hour hour +
      duration_score cfg.max_session_hours d + rate_score n := by linarith
  refine ⟨rfl, time_score_le, duration_score_le, rate_score_le n, ?_, ?_⟩
  · unfold calculate_fatigue_score
    exact le_min (by norm_num) (ratTrunc_nonneg hsum)
  · unfold calculate_fatigue_score
    exact min_le_left _ _

/-- Witness for C1 at the config defaults, hour 3, a 5-hour session
and a 95-keystroke window. -/
theorem fatigue_score_bounds_witness :
    0 ≤ calculate_fatigue_score defaultConfig 3 5 95 ∧
      calculate_fatigue_score defaultConfig 3 5 95 ≤ 100 := by
  have h := fatigue_score_bounds defaultConfig 3 5 95 (by norm_num)
    (by norm_num [defaultConfig]) (by norm_num [defaultConfig])
  exact ⟨h.2.2.2.2.1, h.2.2.2.2.2⟩

/-- C3: the rate factor is tiered on the window count with strict
cutoffs: empty window 25, nonzero below 30 gives 30, 30-59 gives 20,
60-89 gives 10, 90 and above gives 0; including the listed boundary
values. -/
theorem rate_score_tiers (n : ℕ) :
    (n = 0 → rate_score n = 25) ∧
    (0 < n → n < 30 → rate_score n = 30) ∧
    (30 ≤ n → n < 60 → rate_score n = 20) ∧
    (60 ≤ n → n < 90 → rate_score n = 10) ∧
    (90 ≤ n → rate_score n = 0) ∧
    (rate_score 0 = 25 ∧ rate_score 29 = 30 ∧ rate_score 30 = 20 ∧
      rate_score 59 = 20 ∧ rate_score 60 = 10 ∧ rate_score 89 = 10 ∧
      rate_score 90 = 0) := by
  refine ⟨?_, ?_, ?_, ?_, ?_, by decide⟩
  · intro h; subst h; decide
  · intro h1 h2; simp [rate_score, h1, h2]
  · intro h1 h2
    have h3 : 0 < n := by omega
    have h4 : ¬ n < 30 := by omega
    simp [rate_score, h3, h4, h2]
  · intro h1 h2
    have h3 : 0 < n := by omega
    have h4 : ¬ n < 30 := by omega
    have h5 : ¬ n < 60 := by omega
    simp [rate_score, h3, h4, h5, h2]
  · intro h1
    have h3 : 0 < n := by omega
    have h4 : ¬ n < 30 := by omega
    have h5 : ¬ n < 60 := by omega
    have h6 : ¬ n < 90 := by omega
    simp [rate_score, h3, h4, h5, h6]

/-- Witness for C3 at one count per tier. -/
theorem rate_score_tiers_witness :
    rate_score 0 = 25 ∧ rate_score 15 = 30 ∧ rate_score 45 = 20 ∧
      rate_score 75 = 10 ∧ rate_score 95 = 0 :=
  ⟨(rate_score_tiers 0).1 rfl,
    (rate_score_tiers 15).2.1 (by norm_num) (by norm_num),
    (rate_score_tiers 45).2.2.1 (by norm_num) (by norm_num),
    (rate_score_tiers 75).2.2.2.1 (by norm_num) (by norm_num),
    (rate_score_tiers 95).2.2.2.2.1 (by norm_num)⟩

/-- C4 counterexample: with bedtime 23 the code scores hour 23 as 0
(zero hours past bedtime) and hour 0 as 7, not the claimed 7 and 14. -/
theorem time_score_examples_cex :
    time_score 23 23 ≠ 7 ∧ time_score 23 0 ≠ 14 := by
  constructor <;> norm_num [time_score, hours_past_bedtime, min_def]

/-- C4 (amended): timeScore is 0 outside the late-night band, equals
min(30, hoursPastBedtime * 7) inside it with hoursPastBedtime given by
the two branches, is non-decreasing in hoursPastBedtime, and with
bedtime 23 yields 0 at hour 23, 7 at hour 0 and 30 (clamped from 35)
at hour 4. -/
theorem time_score_spec :
    (∀ bedtime hour : ℤ, ¬(bedtime ≤ hour ∨ hour < 6) →
      time_score bedtime hour = 0) ∧
    (∀ bedtime hour : ℤ, (bedtime ≤ hour ∨ hour < 6) →
      time_score bedtime hour =
        min 30 ((hours_past_bedtime bedtime hour : ℚ) * 7)) ∧
    (∀ bedtime hour : ℤ, bedtime ≤ hour →
      hours_past_bedtime bedtime hour = hour - bedtime) ∧
    (∀ bedtime hour : ℤ, hour < bedtime →
      hours_past_bedtime bedtime hour = (24 - bedtime) + hour) ∧
    (∀ bedtime h1 h2 : ℤ, (bedtime ≤ h1 ∨ h1 < 6) → (bedtime ≤ h2 ∨ h2 < 6) →
      hours_past_bedtime bedtime h1 ≤ hours_past_bedtime bedtime h2 →
      time_score bedtime h1 ≤ time_score bedtime h2) ∧
    (time_score 23 23 = 0 ∧ time_score 23 0 = 7 ∧ time_score 23 4 = 30 ∧
      (hours_past_bedtime 23 4 : ℚ) * 7 = 35) := by
  refine ⟨?_, ?_, ?_, ?_, ?_, ?_⟩
  · intro b h hb; unfold time_score; rw [if_neg hb]
  · intro b h hb; unfold time_score; rw [if_pos hb]
  · intro b h hb; unfold hours_past_bedtime; rw [if_pos hb]
  · intro b h hb; unfold hours_past_bedtime; rw [if_neg (not_le.mpr hb)]
  · intro b h1 h2 hb1 hb2 hle
    unfold time_score
    rw [if_pos hb1, if_pos hb2]
    have hc : (hours_past_bedtime b h1 : ℚ) ≤ (hours_past_bedtime b h2 : ℚ) := by
      exact_mod_cast hle
    exact min_le_min (le_refl 30) (mul_le_mul_of_nonneg_right hc (by norm_num))
  · norm_num [time_score, hours_past_bedtime, min_def]

/-- Witness for C4 at bedtime 23: out-of-band hour 12, in-band hour 2,
both branch formulas, and monotonicity from hour 0 to hour 1. -/
theorem time_score_spec_witness :
    time_score 23 12 = 0 ∧
      time_score 23 2 = min 30 ((hours_past_bedtime 23 2 : ℚ) * 7) ∧
      hours_past_bedtime 23 25 = 25 - 23 ∧
      hours_past_bedtime 23 3 = (24 - 23) + 3 ∧
      time_score 23 0 ≤ time_score 23 1 :=
  ⟨time_score_spec.1 23 12 (by omega),
    time_score_spec.2.1 23 2 (by omega),
    time_score_spec.2.2.1 23 25 (by omega),
    time_score_spec.2.2.2.1 23 3 (by omega),
    time_score_spec.2.2.2.2.1 23 0 1 (by omega) (by omega) (by decide)⟩

/-- C10 counterexample: with bedtime 2 and hour 0 the code computes
hoursPastBedtime through the rollover branch, giving 22, not
hour - bedtimeHour = -2. -/
theorem rollover_formula_cex :
    hours_past_bedtime 2 0 = 22 ∧ (0 : ℤ) - 2 ≠ 22 := by decide

/-- C10 (amended): when bedtimeHour is below 6 the late-night band
condition holds at every hour, so timeScore is always computed from
hoursPastBedtime (hour - bedtimeHour when hour is at or past bedtime,
the rollover (24 - bedtimeHour) + hour otherwise); hour 23 with
bedtime 2 yields the clamped maximum 30. -/
theorem early_bedtime_always_in_band :
    (∀ bedtime hour : ℤ, bedtime < 6 →
      (bedtime ≤ hour ∨ hour < 6) ∧
        time_score bedtime hour =
          min 30 ((hours_past_bedtime bedtime hour : ℚ) * 7)) ∧
    time_score 2 23 = 30 := by
  constructor
  · intro b h hb
    have hband : b ≤ h ∨ h < 6 := by omega
    refine ⟨hband, ?_⟩
    unfold time_score
    rw [if_pos hband]
  · norm_num [time_score, hours_past_bedtime, min_def]

/-- Witness for C10 at bedtime 2, hour 0. -/
theorem early_bedtime_always_in_band_witness :
    ((2 : ℤ) ≤ 0 ∨ (0 : ℤ) < 6) ∧
      time_score 2 0 = min 30 ((hours_past_bedtime 2 0 : ℚ) * 7) :=
  early_bedtime_always_in_band.1 2 0 (by norm_num)

/-- C2: on each evaluation the gate fires at most once, for the
lowest configured level `L` with `score >= L` and `last < L`; the
notification is tagged with the score, `last_notification_level`
becomes `L`, and afterwards it is reset to 0 exactly when the score is
below 30, whether or not an alert fired. -/
theorem alert_gate_step_spec (levels : List ℤ) (s last : ℤ) :
    (∀ L, (alert_step levels s last).fired = some L →
      L ∈ levels ∧ L ≤ s ∧ last < L ∧
        (∀ M ∈ levels, M ≤ s → last < M → L ≤ M) ∧
        (alert_step levels s last).notif = some s ∧
        (¬ s < 30 → (alert_step levels s last).last = L)) ∧
    ((alert_step levels s last).fired = none →
      (alert_step levels s last).notif = none ∧
      (∀ M ∈ levels, ¬(M ≤ s ∧ last < M)) ∧
      (¬ s < 30 → (alert_step levels s last).last = last)) ∧
    (s < 30 → (alert_step levels s last).last = 0) := by
  refine ⟨?_, ?_, fun h => alert_step_last_reset h⟩
  · intro L hL
    obtain ⟨h1, h2, h3, h4⟩ := alert_step_fired_spec hL
    refine ⟨h1, h2, h3, h4, ?_, fun h => alert_step_last_of_fired hL h⟩
    have hf : find_fire (levels.insertionSort (· ≤ ·)) s last = some L := by
      rw [← alert_step_fired_find]; exact hL
    show (find_fire (levels.insertionSort (· ≤ ·)) s last).map (fun _ => s) = some s
    rw [hf]
    rfl
  · intro hN
    have hf : find_fire (levels.insertionSort (· ≤ ·)) s last = none := by
      rw [← alert_step_fired_find]; exact hN
    refine ⟨?_, ?_, fun h => alert_step_last_of_none hN h⟩
    · show (find_fire (levels.insertionSort (· ≤ ·)) s last).map (fun _ => s) = none
      rw [hf]
      rfl
    · intro M hM
      exact find_fire_none hf M ((List.mem_insertionSort _).mpr hM)

/-- Witness for C2 at levels [30, 60, 90], score 65, no prior alert:
level 30 fires, the notification is tagged 65, the level becomes 30. -/
theorem alert_gate_step_spec_witness :
    (30 : ℤ) ∈ [(30 : ℤ), 60, 90] ∧
      (alert_step [30, 60, 90] 65 0).notif = some 65 ∧
      (alert_step [30, 60, 90] 65 0).last = 30 := by
  have h := (alert_gate_step_spec [30, 60, 90] 65 0).1 30 (by decide)
  exact ⟨h.1, h.2.2.2.2.1, h.2.2.2.2.2 (by decide)⟩

/-- C6: the gate never fires twice for the same (or a lower)
configured threshold without an intervening evaluation whose score
dropped below 30: if a step fires level `L` and a later step fires
`M <= L`, some score from the first firing step up to just before the
second was below 30 (and every such score resets the level to 0). -/
theorem alert_gate_no_refire (levels : List ℤ) (last0 : ℤ) (pre : List ℤ)
    (s1 : ℤ) (mid : List ℤ) (s2 L M : ℤ)
    (h1 : (alert_step levels s1 (gate_last levels last0 pre)).fired = some L)
    (h2 : (alert_step levels s2
      (gate_last levels last0 (pre ++ s1 :: mid))).fired = some M)
    (hle : M ≤ L) :
    ∃ s ∈ s1 :: mid, s < 30 := by
  by_contra hc
  push_neg at hc
  have hs1 : ¬ s1 < 30 := not_lt.mpr (hc s1 (List.mem_cons_self s1 mid))
  have hL : (alert_step levels s1 (gate_last levels last0 pre)).last = L :=
    alert_step_last_of_fired h1 hs1
  have hrw : gate_last levels last0 (pre ++ s1 :: mid) =
      gate_last levels L mid := by
    rw [gate_last_append, gate_last_cons, hL]
  have hmono : L ≤ gate_last levels L mid :=
    gate_last_mono (fun s hs => not_lt.mpr (hc s (List.mem_cons_of_mem s1 hs))) L
  have hlt := (alert_step_fired_spec h2).2.2.1
  rw [hrw] at hlt
  linarith

/-- Witness for C6: level 30 fires at score 65, fires again at score
65 after the intermediate score 20, and indeed a score below 30 sits
between the two firings. -/
theorem alert_gate_no_refire_witness : ∃ s ∈ [(65 : ℤ), 20], s < 30 :=
  alert_gate_no_refire [30, 60, 90] 0 [] 65 [20] 65 30 30
    (by decide) (by decide) (by decide)

/-- C7: `record` keeps exactly the previously retained timestamps
still inside the window of the new time plus the new event at the
tail; an evicted timestamp never reappears across any run of records
unless re-recorded; the rate is the count of retained entries and an
empty window rates 0; `on_press` records through this window and bumps
the keystroke counter. -/
theorem keystroke_window_spec (W t : ℚ) (h : List ℚ) (hW : 0 < W) :
    record W h t = h.filter (fun x => decide (t - W < x)) ++ [t] ∧
    (∀ e, e ∈ record W h t → e ∈ h ∨ e = t) ∧
    (∀ (ts : List ℚ) (e : ℚ), e ∈ record_all W h ts → e ∈ h ∨ e ∈ ts) ∧
    (∀ hist : List ℚ, get_keystroke_rate hist = hist.length) ∧
    get_keystroke_rate [] = 0 ∧
    (∀ (cfg : Config) (st : DaemonState),
      (on_press cfg t st).keystroke_history =
        record cfg.keystroke_window_seconds st.keystroke_history t ∧
      (on_press cfg t st).keystroke_count = st.keystroke_count + 1) := by
  refine ⟨?_, fun e he => record_mem he, fun ts e he => record_all_mem ts h e he,
    get_keystroke_rate_eq, rfl, fun cfg st => ⟨rfl, rfl⟩⟩
  unfold record
  rw [List.filter_append]
  have ht : t - W < t := sub_lt_self t hW
  simp [ht]

/-- Witness for C7 with a 60-second window, one retained event at
time 10 and a new event at time 30. -/
theorem keystroke_window_spec_witness :
    record 60 [10] 30 =
      List.filter (fun x => decide ((30 : ℚ) - 60 < x)) [10] ++ [30] ∧
      get_keystroke_rate [] = 0 :=
  ⟨(keystroke_window_spec 60 30 [10] (by norm_num)).1,
    (keystroke_window_spec 60 30 [10] (by norm_num)).2.2.2.2.1⟩

/-- A state whose single retained keystroke (time 0) is far older than
the 60-second window at evaluation time 100. -/
def staleState : DaemonState :=
  { session_start := 0
    keystroke_count := 1
    keystroke_history := record 60 [] 0
    fatigue_score := 0
    last_notification_level := 0
    last_save_time := 0
    running := true }

/-- C5 counterexample: at evaluation time 100 every retained
keystroke of `staleState` is older than the window, yet the evaluation
leaves the history untouched and the snapshot it persists reports a
rate of 1, not 0. -/
theorem evaluation_tick_does_not_prune_cex :
    (∀ x ∈ staleState.keystroke_history,
      x ≤ (100 : ℚ) - defaultConfig.keystroke_window_seconds) ∧
    staleState.keystroke_history ≠ [] ∧
    (evaluate defaultConfig 12 100 true staleState).1.keystroke_history =
      staleState.keystroke_history ∧
    Option.map Snapshot.current_keystroke_rate
      (evaluate defaultConfig 12 100 true staleState).2.2 = some 1 := by
  have hh : staleState.keystroke_history = [0] := by
    norm_num [staleState, record]
  refine ⟨?_, ?_, rfl, ?_⟩
  · intro x hx
    rw [hh] at hx
    simp at hx
    subst hx
    norm_num [defaultConfig]
  · rw [hh]
    simp
  · norm_num [evaluate, staleState, defaultConfig, record,
      calculate_fatigue_score, time_score, duration_score, rate_score,
      ratTrunc, hours_past_bedtime, min_def, alert_step, find_fire,
      save_stats, get_keystroke_rate, List.insertionSort, List.orderedInsert]

/-- C5 (amended): the periodic evaluation tick never prunes — the
history survives evaluation unchanged and any persisted snapshot
reports the count of currently retained (possibly stale) events; the
rate decays to zero only when a later keystroke is recorded, which
evicts all events older than its window. -/
theorem evaluation_tick_semantics (cfg : Config) (hour : ℤ) (now : ℚ)
    (sink : Bool) (st : DaemonState) :
    (evaluate cfg hour now sink st).1.keystroke_history =
      st.keystroke_history ∧
    (∀ snap, (evaluate cfg hour now sink st).2.2 = some snap →
      snap.current_keystroke_rate = get_keystroke_rate st.keystroke_history) ∧
    (∀ (W tk : ℚ) (hist : List ℚ), 0 < W → (∀ x ∈ hist, x ≤ tk - W) →
      record W hist tk = [tk]) := by
  refine ⟨rfl, ?_, ?_⟩
  · intro snap hsnap
    rw [evaluate_snap] at hsnap
    by_cases hgate : cfg.save_interval_seconds ≤ now - st.last_save_time
    · rw [if_pos hgate] at hsnap
      have hs := Option.some.inj hsnap
      rw [← hs]
      rfl
    · rw [if_neg hgate] at hsnap
      exact absurd hsnap (by simp)
  · intro W tk hist hW hall
    unfold record
    rw [List.filter_append]
    have h1 : hist.filter (fun x => decide (tk - W < x)) = [] := by
      rw [List.filter_eq_nil_iff]
      intro a ha
      simp only [decide_eq_true_eq]
      exact not_lt.mpr (hall a ha)
    have ht : tk - W < tk := sub_lt_self tk hW
    rw [h1]
    simp [ht]

/-- Witness for C5 (amended): a record at time 100 over a fully stale
history keeps only the new event. -/
theorem evaluation_tick_semantics_witness :
    record 60 [0] 100 = [100] :=
  (evaluation_tick_semantics defaultConfig 12 100 true staleState).2.2 60 100 [0]
    (by norm_num) (by intro x hx; simp at hx; subst hx; norm_num)

/-- C8: a snapshot is persisted by an evaluation exactly when the
elapsed time since `last_save_time` reaches the save interval (which
then moves to the evaluation time, so consecutive periodic saves are
spaced at least the interval apart); on shutdown the running flag
drops and one final snapshot is produced unconditionally from the
current state. -/
theorem save_gate_spec :
    (∀ (cfg : Config) (hour : ℤ) (now : ℚ) (sink : Bool) (st : DaemonState),
      (((evaluate cfg hour now sink st).2.2).isSome = true ↔
        cfg.save_interval_seconds ≤ now - st.last_save_time) ∧
      (cfg.save_interval_seconds ≤ now - st.last_save_time →
        (evaluate cfg hour now sink st).1.last_save_time = now) ∧
      (¬ cfg.save_interval_seconds ≤ now - st.last_save_time →
        (evaluate cfg hour now sink st).1.last_save_time = st.last_save_time ∧
        (evaluate cfg hour now sink st).2.2 = none)) ∧
    (∀ (cfg : Config) (st : DaemonState) (ticks : List (ℤ × ℚ)),
      List.Chain' (fun a b => cfg.save_interval_seconds ≤ b - a)
        (save_times cfg st ticks)) ∧
    (∀ (hour : ℤ) (now : ℚ) (st : DaemonState),
      (shutdown hour now st).1.running = false ∧
      (shutdown hour now st).2 = save_stats hour now st ∧
      (shutdown hour now st).1.keystroke_history = st.keystroke_history) := by
  refine ⟨?_, fun cfg st ticks => save_times_chain cfg ticks st,
    fun hour now st => ⟨rfl, rfl, rfl⟩⟩
  intro cfg hour now sink st
  refine ⟨evaluate_save_isSome cfg hour now sink st, ?_, ?_⟩
  · intro hg
    rw [evaluate_last_save, if_pos hg]
  · intro hg
    constructor
    · rw [evaluate_last_save, if_neg hg]
    · rw [evaluate_snap, if_neg hg]

/-- Witness for C8: with the default 60-second interval, an
evaluation at time 100 from a last save at time 0 persists and moves
the save time, and shutdown clears the running flag. -/
theorem save_gate_spec_witness :
    (evaluate defaultConfig 12 100 true staleState).1.last_save_time = 100 ∧
      (shutdown 12 100 staleState).1.running = false :=
  ⟨(save_gate_spec.1 defaultConfig 12 100 true staleState).2.1
      (by norm_num [defaultConfig, staleState]),
    (save_gate_spec.2.2 12 100 staleState).1⟩

/-- C9: `send_notification` picks its message purely by the score's
magnitude at the fixed 30/60/90 tiers, the warning tier carrying the
formatted session duration, and a score below 30 sends nothing; the
daemon state produced by an evaluation (and the snapshot it persists)
does not depend on whether the notification sink succeeds, and an
evaluation never clears the running flag. -/
theorem notification_content_spec (secs : ℚ) (s : ℤ) :
    (90 ≤ s → send_notification secs s = some NotifTier.critical) ∧
    (60 ≤ s → s < 90 → send_notification secs s = some NotifTier.high) ∧
    (30 ≤ s → s < 60 → send_notification secs s =
      some (NotifTier.warning (get_session_duration secs))) ∧
    (s < 30 → send_notification secs s = none) ∧
    (∀ (cfg : Config) (hour : ℤ) (now : ℚ) (st : DaemonState),
      (evaluate cfg hour now true st).1 = (evaluate cfg hour now false st).1 ∧
      (evaluate cfg hour now true st).2.2 =
        (evaluate cfg hour now false st).2.2) ∧
    (∀ (cfg : Config) (hour : ℤ) (now : ℚ) (sink : Bool) (st : DaemonState),
      (evaluate cfg hour now sink st).1.running = st.running) := by
  refine ⟨?_, ?_, ?_, ?_, fun cfg hour now st => ⟨rfl, rfl⟩,
    fun cfg hour now sink st => rfl⟩
  · intro h1
    unfold send_notification
    rw [if_pos h1]
  · intro h1 h2
    unfold send_notification
    rw [if_neg (by omega), if_pos h1]
  · intro h1 h2
    unfold send_notification
    rw [if_neg (by omega), if_neg (by omega), if_pos h1]
  · intro h1
    unfold send_notification
    rw [if_neg (by omega), if_neg (by omega), if_neg (by omega)]

/-- Witness for C9 at one score per tier with a one-hour session. -/
theorem notification_content_spec_witness :
    send_notification 3600 95 = some NotifTier.critical ∧
      send_notification 3600 70 = some NotifTier.high ∧
      send_notification 3600 45 =
        some (NotifTier.warning (get_session_duration 3600)) ∧
      send_notification 3600 10 = none :=
  ⟨(notification_content_spec 3600 95).1 (by norm_num),
    (notification_content_spec 3600 70).2.1 (by norm_num) (by norm_num),
    (notification_content_spec 3600 45).2.2.1 (by norm_num) (by norm_num),
    (notification_content_spec 3600 10).2.2.2.1 (by norm_num)⟩

end SleepGuard
